import Mathlib

/-!
Verification development for the pdf-ocr tool: a shallow embedding of its
analyzer (the "needs OCR" classifier), path resolver, single-file processor,
batch orchestrator and command-line front end, together with theorems that
check the specification's claims against the embedded code.

External collaborators are modelled as oracles: the PDF parsing library is a
function from a path to either an error message or the per-page
extractable-text character counts; the OCR pipeline is a function from
(input, output, language) to either success or an error message; the
filesystem is a list of existing paths.  Pipeline invocations and progress
callback invocations are returned as explicit traces so that "the pipeline is
invoked" and "the callback is called with these arguments" are statable.
-/

namespace PdfOcr

/-- A filesystem path as pathlib presents it: a parent directory (kept
abstract as a string) and a final name component, kept as a character list. -/
structure Path where
  parent : String
  name : List Char
deriving DecidableEq

/-- Scan the reversed tail of a file name for the last dot of the name.
The accumulator holds the characters already passed, in forward order.
Returns the extension characters after the dot and the reversed stem when the
last dot of the name is neither its first nor its last character, which is
exactly when pathlib assigns a non-empty extension. -/
def goSplit : List Char → List Char → Option (List Char × List Char)
  | [], _ => none
  | c :: cs, acc =>
    if c = '.' then (if cs = [] then none else some (acc, cs))
    else goSplit cs (c :: acc)

/-- Split a file name into stem and extension following pathlib: the
extension starts at the last dot of the name, provided that dot is neither
the first nor the last character; otherwise the extension is empty. -/
def splitName (name : List Char) : List Char × List Char :=
  match name.reverse with
  | [] => (name, [])
  | c :: cs =>
    if c = '.' then (name, [])
    else
      match goSplit cs [c] with
      | none => (name, [])
      | some (ext, stemRev) => (stemRev.reverse, '.' :: ext)

/-- The file name without its extension, as pathlib's stem. -/
def Path.stem (p : Path) : List Char :=
  (splitName p.name).1

/-- The file extension including the leading dot, as pathlib's suffix. -/
def Path.suffix (p : Path) : List Char :=
  (splitName p.name).2

/-- Rendering of a path to text, used only in printed diagnostics. -/
def Path.render (p : Path) : String :=
  p.parent ++ "/" ++ String.mk p.name

/-- Embedding of processor.get_output_path: same parent directory, file name
stem ++ suffix ++ original extension. -/
def get_output_path (input_path : Path) (suffix : List Char) : Path :=
  ⟨input_path.parent, input_path.stem ++ suffix ++ input_path.suffix⟩

/-- Embedding of processor.ProcessResult. -/
structure ProcessResult where
  input_path : Path
  output_path : Option Path
  success : Bool
  skipped : Bool
  error : Option String
deriving DecidableEq

/-- Embedding of processor.BatchResult. -/
structure BatchResult where
  processed : Nat
  skipped : Nat
  failed : Nat
  results : List ProcessResult
deriving DecidableEq

/-- One invocation of the external OCR pipeline, with the flags the code
always passes (skip_text=True, deskew=True). -/
structure OcrCall where
  input_path : Path
  output_path : Path
  language : String
  skip_text : Bool
  deskew : Bool
deriving DecidableEq

/-- The external OCR pipeline as an oracle: success, or the message of the
exception it raises. -/
def Pipeline : Type :=
  Path → Path → String → Except String Unit

/-- Embedding of processor.process_pdf.  The filesystem is the list of
existing paths; the returned list is the filesystem after the call (on
pipeline success the output file now exists) and the trace of pipeline
invocations made by the call. -/
def process_pdf (pipeline : Pipeline) (files : List Path) (input_path : Path)
    (suffix : List Char) (force : Bool) (language : String) :
    ProcessResult × List Path × List OcrCall :=
  let output_path := get_output_path input_path suffix
  if output_path ∈ files ∧ force = false then
    (⟨input_path, some output_path, true, true, none⟩, files, [])
  else
    match pipeline input_path output_path language with
    | Except.ok _ =>
      (⟨input_path, some output_path, true, false, none⟩, output_path :: files,
        [⟨input_path, output_path, language, true, true⟩])
    | Except.error e =>
      (⟨input_path, none, false, false, some e⟩, files,
        [⟨input_path, output_path, language, true, true⟩])

/-- The tallying step of processor.process_batch's loop body: skipped results
bump the skipped counter, successful non-skipped results the processed
counter, everything else the failed counter; the result is recorded. -/
def tally (result : ProcessResult) (b : BatchResult) : BatchResult :=
  if result.skipped then ⟨b.processed, b.skipped + 1, b.failed, result :: b.results⟩
  else if result.success then ⟨b.processed + 1, b.skipped, b.failed, result :: b.results⟩
  else ⟨b.processed, b.skipped, b.failed + 1, result :: b.results⟩

/-- One invocation of the progress callback: current (1-based) index, total
count, and the path about to be processed. -/
structure CallEvent where
  current : Nat
  total : Nat
  path : Path
deriving DecidableEq

/-- The progress callback as an oracle: it either returns or raises with a
message, which process_batch does not catch. -/
def ProgressCallback : Type :=
  Nat → Nat → Path → Except String Unit

/-- The loop of processor.process_batch, as structural recursion over the
remaining input list.  Returns the trace of callback invocations, the trace
of pipeline invocations, and either the callback's uncaught exception or the
BatchResult together with the final filesystem. -/
def process_batch_go (pipeline : Pipeline) (suffix : List Char) (force : Bool)
    (language : String) (progress_callback : Option ProgressCallback) (total : Nat) :
    Nat → List Path → List Path →
      List CallEvent × List OcrCall × Except String (BatchResult × List Path)
  | _, files, [] => ([], [], Except.ok (⟨0, 0, 0, []⟩, files))
  | i, files, pdf_path :: rest =>
    match progress_callback with
    | none =>
      let z := process_pdf pipeline files pdf_path suffix force language
      let t := process_batch_go pipeline suffix force language none total (i + 1) z.2.1 rest
      (t.1, z.2.2 ++ t.2.1,
        match t.2.2 with
        | Except.error e => Except.error e
        | Except.ok (b, fs) => Except.ok (tally z.1 b, fs))
    | some f =>
      match f (i + 1) total pdf_path with
      | Except.error e => ([⟨i + 1, total, pdf_path⟩], [], Except.error e)
      | Except.ok _ =>
        let z := process_pdf pipeline files pdf_path suffix force language
        let t := process_batch_go pipeline suffix force language (some f) total (i + 1) z.2.1 rest
        (⟨i + 1, total, pdf_path⟩ :: t.1, z.2.2 ++ t.2.1,
          match t.2.2 with
          | Except.error e => Except.error e
          | Except.ok (b, fs) => Except.ok (tally z.1 b, fs))

/-- Embedding of processor.process_batch. -/
def process_batch (pipeline : Pipeline) (files : List Path) (pdf_list : List Path)
    (suffix : List Char) (force : Bool) (language : String)
    (progress_callback : Option ProgressCallback) :
    List CallEvent × List OcrCall × Except String (BatchResult × List Path) :=
  process_batch_go pipeline suffix force language progress_callback pdf_list.length 0 files pdf_list

/-- The callback events a completed run over a file list produces: one per
file, in input order, with 1-based index, the fixed total, and the path. -/
def eventsFrom (total : Nat) : Nat → List Path → List CallEvent
  | _, [] => []
  | i, p :: rest => ⟨i + 1, total, p⟩ :: eventsFrom total (i + 1) rest

/-- Embedding of analyzer.needs_ocr.  The document is the PDF library's view
of the file: an error message when opening or reading raises, otherwise the
extractable-text character count of every page.  Returns the verdict and the
diagnostic lines printed. -/
def needs_ocr (pdf_path : Path) (doc : Except String (List Nat))
    (empty_page_threshold : Nat) (empty_page_ratio : Rat) : Bool × List String :=
  match doc with
  | Except.error e => (false, ["Error analyzing " ++ pdf_path.render ++ ": " ++ e])
  | Except.ok pages =>
    let page_count := pages.length
    if page_count = 0 then (false, [])
    else
      let empty_pages := pages.countP (fun char_count => char_count < empty_page_threshold)
      (decide (((empty_pages : Rat) / (page_count : Rat)) ≥ empty_page_ratio), [])

/-- Reference classifier, written from the specification's words: any error
while opening or reading yields false; a document with zero pages yields
false; otherwise true exactly when the number of pages whose character count
is strictly below the threshold, divided by the page count, is at least the
ratio. -/
def needs_ocr_reference (doc : Except String (List Nat))
    (empty_page_threshold : Nat) (empty_page_ratio : Rat) : Bool :=
  match doc with
  | Except.error _ => false
  | Except.ok pages =>
    if pages.length = 0 then false
    else
      decide ((((pages.countP (fun c => c < empty_page_threshold)) : Rat) / (pages.length : Rat))
        ≥ empty_page_ratio)

/-- The parsed command-line arguments of cli.main. -/
structure Args where
  path : Path
  suffix : List Char
  force : Bool
  dry_run : Bool
  empty_ratio : Rat
  language : String

/-- The world the command line runs against: what the target path is on the
filesystem, the set of existing files, the PDF library's view of each file,
the OCR pipeline, and the result of the recursive directory scan. -/
structure CliWorld where
  target_exists : Bool
  target_is_file : Bool
  target_is_dir : Bool
  files : List Path
  docs : Path → Except String (List Nat)
  pipeline : Pipeline
  scan : List Path

/-- Text of an optional string as Python prints it. -/
def optionStr : Option String → String
  | some s => s
  | none => "None"

/-- Embedding of cli.process_single_file.  Returns exit code, printed lines,
the filesystem after the call, and the pipeline invocations made. -/
def process_single_file (w : CliWorld) (parsed : Args) :
    Nat × List String × List Path × List OcrCall :=
  let pdf_path := parsed.path
  if pdf_path.suffix.map Char.toLower ≠ ".pdf".toList then
    (1, ["Error: Not a PDF file: " ++ pdf_path.render], w.files, [])
  else
    let output_path := get_output_path pdf_path parsed.suffix
    let verdict := needs_ocr pdf_path (w.docs pdf_path) 10 parsed.empty_ratio
    let status := if verdict.1 then "needs OCR" else "already has OCR"
    let prints0 := verdict.2 ++
      ["File: " ++ pdf_path.render, "Status: " ++ status, "Output: " ++ output_path.render]
    if parsed.dry_run then
      let ex := if output_path ∈ w.files then " (already exists)" else ""
      (0, prints0 ++ ["\n[DRY RUN] Would process: " ++ pdf_path.render ++ ex], w.files, [])
    else
      let z := process_pdf w.pipeline w.files pdf_path parsed.suffix parsed.force parsed.language
      let prints1 := prints0 ++ ["\nProcessing..."]
      if z.1.skipped then
        (0, prints1 ++ ["Skipped: Output already exists. Use --force to reprocess."], z.2.1, z.2.2)
      else if z.1.success then
        (0, prints1 ++ ["Success: " ++ optionStr (z.1.output_path.map Path.render)], z.2.1, z.2.2)
      else
        (1, prints1 ++ ["Failed: " ++ optionStr z.1.error], z.2.1, z.2.2)

/-- The analysis loop of cli.main's directory branch: partition the scanned
files into those needing OCR and those not, collecting diagnostic lines. -/
def analyze_pdfs (docs : Path → Except String (List Nat)) (empty_ratio : Rat) :
    List Path → List Path × List Path × List String
  | [] => ([], [], [])
  | p :: rest =>
    let verdict := needs_ocr p (docs p) 10 empty_ratio
    let t := analyze_pdfs docs empty_ratio rest
    if verdict.1 then (p :: t.1, t.2.1, verdict.2 ++ t.2.2)
    else (t.1, p :: t.2.1, verdict.2 ++ t.2.2)

/-- The dry-run listing of cli.main's directory branch. -/
def dry_run_lines (files : List Path) (suffix : List Char) : List Path → List String
  | [] => []
  | p :: rest =>
    let output_path := get_output_path p suffix
    let ex := if output_path ∈ files then " (output exists)" else ""
    ("  " ++ p.render ++ ex) :: ("    -> " ++ output_path.render) ::
      dry_run_lines files suffix rest

/-- The failure listing at the end of cli.main's directory branch. -/
def failure_lines : List ProcessResult → List String
  | [] => []
  | r :: rest =>
    (if r.success = false ∧ r.skipped = false then
      ["  " ++ r.input_path.render, "    Error: " ++ optionStr r.error]
    else []) ++ failure_lines rest

/-- Embedding of cli.main (after argument parsing).  Returns the exit code,
printed lines, final filesystem and pipeline invocations, or the message of
an exception that propagated uncaught out of main. -/
def main (w : CliWorld) (parsed : Args) :
    Except String (Nat × List String × List Path × List OcrCall) :=
  if w.target_exists = false then
    Except.ok (1, ["Error: Path not found: " ++ parsed.path.render], w.files, [])
  else if w.target_is_file then
    Except.ok (process_single_file w parsed)
  else if w.target_is_dir = false then
    Except.ok (1, ["Error: Not a file or directory: " ++ parsed.path.render], w.files, [])
  else
    let prints0 := ["Scanning: " ++ parsed.path.render, ""]
    let all_pdfs := w.scan
    if all_pdfs.isEmpty then
      Except.ok (0, prints0 ++ ["No PDF files found."], w.files, [])
    else
      let prints1 := prints0 ++
        ["\nFound " ++ toString all_pdfs.length ++ " PDF(s). Analyzing..."]
      let a := analyze_pdfs w.docs parsed.empty_ratio all_pdfs
      let needs_ocr_list := a.1
      let has_ocr_list := a.2.1
      let prints2 := prints1 ++ a.2.2 ++
        ["\nAnalysis complete:",
         "  - Already have OCR: " ++ toString has_ocr_list.length,
         "  - Need OCR:         " ++ toString needs_ocr_list.length]
      if needs_ocr_list.isEmpty then
        Except.ok (0, prints2 ++ ["\nNo PDFs need OCR processing."], w.files, [])
      else if parsed.dry_run then
        Except.ok (0, prints2 ++ ["\n[DRY RUN] Files that would be processed:"] ++
          dry_run_lines w.files parsed.suffix needs_ocr_list, w.files, [])
      else
        let prints3 := prints2 ++
          ["\nProcessing " ++ toString needs_ocr_list.length ++ " PDF(s)..."]
        match process_batch w.pipeline w.files needs_ocr_list parsed.suffix parsed.force
          parsed.language (some (fun _ _ _ => Except.ok ())) with
        | (_, _, Except.error e) => Except.error e
        | (_, calls, Except.ok (b, files2)) =>
          let prints4 := prints3 ++
            ["\nComplete!",
             "  - Processed: " ++ toString b.processed,
             "  - Skipped (already existed): " ++ toString b.skipped,
             "  - Failed: " ++ toString b.failed]
          let prints5 := prints4 ++
            (if b.failed > 0 then ["\nFailed files:"] ++ failure_lines b.results else [])
          Except.ok (if b.failed = 0 then 0 else 1, prints5, files2, calls)

/-! ### Lemmas about the path resolver -/

theorem goSplit_eq (l : List Char) : ∀ acc ext stemRev,
    goSplit l acc = some (ext, stemRev) →
    stemRev.reverse ++ '.' :: ext = l.reverse ++ acc := by
  induction l with
  | nil => intro acc ext stemRev h; simp [goSplit] at h
  | cons c cs ih =>
    intro acc ext stemRev h
    by_cases hc : c = '.'
    · subst hc
      simp only [goSplit, if_pos rfl] at h
      rcases hcs : cs with _ | ⟨d, ds⟩
      · simp [hcs] at h
      · rw [hcs] at h
        simp at h
        rw [← h.1, ← h.2]
        simp
    · simp only [goSplit, if_neg hc] at h
      have := ih (c :: acc) ext stemRev h
      rw [this]
      simp

theorem stem_append_suffix (p : Path) : p.stem ++ p.suffix = p.name := by
  have hname : p.name = p.name.reverse.reverse := by simp
  unfold Path.stem Path.suffix splitName
  rcases hrev : p.name.reverse with _ | ⟨c, cs⟩
  · simp
  · rw [hrev] at hname
    by_cases hc : c = '.'
    · simp [hc]
    · simp only [if_neg hc]
      rcases hgo : goSplit cs [c] with _ | ⟨ext, stemRev⟩
      · simp
      · simp only []
        have h := goSplit_eq cs [c] ext stemRev hgo
        rw [hname]
        simp only [List.reverse_cons]
        rw [← h]

/-- C7: get_output_path returns the input's parent directory joined with the
file name stem ++ suffix ++ original extension; it is deterministic (equal
arguments give equal paths), and for every non-empty suffix the resulting
file name differs from the input's file name. -/
theorem get_output_path_contract (p : Path) (s : List Char) :
    get_output_path p s = ⟨p.parent, p.stem ++ s ++ p.suffix⟩ ∧
    (∀ q : Path, q = p → get_output_path q s = get_output_path p s) ∧
    (s ≠ [] → (get_output_path p s).name ≠ p.name) := by
  refine ⟨rfl, fun q hq => by rw [hq], fun hs hname => ?_⟩
  have h2 := stem_append_suffix p
  have h1 : (p.stem ++ s ++ p.suffix).length = (p.stem ++ p.suffix).length := by
    have : (get_output_path p s).name = p.stem ++ s ++ p.suffix := rfl
    rw [← this, hname, ← h2]
  simp [List.length_append] at h1
  exact hs h1

/-- Witness for C7 at a concrete path and suffix. -/
theorem get_output_path_contract_witness :
    get_output_path ⟨"d", "doc.pdf".toList⟩ "_ocr".toList =
      (⟨"d", "doc_ocr.pdf".toList⟩ : Path) ∧
    (get_output_path ⟨"d", "doc.pdf".toList⟩ "_ocr".toList).name ≠ "doc.pdf".toList := by
  have h := get_output_path_contract ⟨"d", "doc.pdf".toList⟩ "_ocr".toList
  refine ⟨by rw [h.1]; decide, ?_⟩
  have h3 := h.2.2 (by decide)
  exact h3

/-- C10: with the empty suffix the output path equals the input path itself;
hence when the input path exists on the filesystem, process_pdf with
force=false skips (success, skipped, no pipeline call), and with force=true
the pipeline is invoked with output path equal to the input path. -/
theorem empty_suffix_output_path (pipeline : Pipeline) (files : List Path)
    (p : Path) (language : String) :
    get_output_path p [] = p ∧
    (p ∈ files →
      process_pdf pipeline files p [] false language =
        (⟨p, some p, true, true, none⟩, files, [])) ∧
    (process_pdf pipeline files p [] true language).2.2 = [⟨p, p, language, true, true⟩] := by
  have h1 : get_output_path p [] = p := by
    have h := stem_append_suffix p
    unfold get_output_path
    rw [List.append_nil, h]
  refine ⟨h1, fun hp => ?_, ?_⟩
  · simp [process_pdf, h1, hp]
  · cases hpl : pipeline p p language <;> simp [process_pdf, h1, hpl]

/-- Witness for C10 at a concrete existing path. -/
theorem empty_suffix_output_path_witness :
    process_pdf (fun _ _ _ => Except.ok ()) [⟨"d", "a.pdf".toList⟩]
        ⟨"d", "a.pdf".toList⟩ [] false "eng" =
      (⟨⟨"d", "a.pdf".toList⟩, some ⟨"d", "a.pdf".toList⟩, true, true, none⟩,
        [⟨"d", "a.pdf".toList⟩], []) :=
  (empty_suffix_output_path (fun _ _ _ => Except.ok ()) [⟨"d", "a.pdf".toList⟩]
    ⟨"d", "a.pdf".toList⟩ "eng").2.1 (by decide)

/-! ### The classifier -/

/-- C1: the classifier agrees everywhere with the reference definition taken
from the specification: any error opening or reading the document is caught,
a diagnostic is logged and the verdict is false; a zero-page document gives
false; otherwise the verdict is true exactly when the fraction of pages whose
character count is strictly below the threshold is at least the ratio. -/
theorem needs_ocr_matches_reference (pdf_path : Path) (doc : Except String (List Nat))
    (empty_page_threshold : Nat) (empty_page_ratio : Rat) :
    (needs_ocr pdf_path doc empty_page_threshold empty_page_ratio).1 =
      needs_ocr_reference doc empty_page_threshold empty_page_ratio ∧
    (∀ e, doc = Except.error e →
      (needs_ocr pdf_path doc empty_page_threshold empty_page_ratio).1 = false ∧
      (needs_ocr pdf_path doc empty_page_threshold empty_page_ratio).2 =
        ["Error analyzing " ++ pdf_path.render ++ ": " ++ e]) := by
  constructor
  · cases doc with
    | error e => simp [needs_ocr, needs_ocr_reference]
    | ok pages =>
      by_cases hz : pages.length = 0 <;> simp [needs_ocr, needs_ocr_reference, hz]
  · intro e he
    subst he
    simp [needs_ocr]

/-- Witness for C1 on a concrete unreadable document. -/
theorem needs_ocr_matches_reference_witness :
    (needs_ocr ⟨"d", "a.pdf".toList⟩ (Except.error "bad") 10 (1 / 2)).1 = false ∧
    (needs_ocr ⟨"d", "a.pdf".toList⟩ (Except.error "bad") 10 (1 / 2)).2 =
      ["Error analyzing " ++ (Path.render ⟨"d", "a.pdf".toList⟩) ++ ": " ++ "bad"] :=
  (needs_ocr_matches_reference ⟨"d", "a.pdf".toList⟩ (Except.error "bad") 10 (1 / 2)).2
    "bad" rfl

/-! ### The single-file processor -/

/-- C3: when the computed output path already exists and force is false,
process_pdf returns success=true, skipped=true with that output path and no
error, making no pipeline invocation; in every other case (output absent, or
force=true) the pipeline is invoked, exactly once, on the input path, the
computed output path and the language. -/
theorem process_pdf_skip_and_force (pipeline : Pipeline) (files : List Path)
    (input_path : Path) (suffix : List Char) (language : String) :
    (get_output_path input_path suffix ∈ files →
      process_pdf pipeline files input_path suffix false language =
        (⟨input_path, some (get_output_path input_path suffix), true, true, none⟩,
          files, [])) ∧
    (∀ force : Bool, ¬(get_output_path input_path suffix ∈ files ∧ force = false) →
      (process_pdf pipeline files input_path suffix force language).2.2 =
        [⟨input_path, get_output_path input_path suffix, language, true, true⟩]) := by
  constructor
  · intro hp
    simp [process_pdf, hp]
  · intro force hf
    cases hpl : pipeline input_path (get_output_path input_path suffix) language <;>
      simp [process_pdf, hf, hpl]

/-- Witness for C3: a present output is skipped; an absent output triggers
one pipeline invocation. -/
theorem process_pdf_skip_and_force_witness :
    process_pdf (fun _ _ _ => Except.ok ())
        [get_output_path ⟨"d", "a.pdf".toList⟩ "_ocr".toList]
        ⟨"d", "a.pdf".toList⟩ "_ocr".toList false "eng" =
      (⟨⟨"d", "a.pdf".toList⟩, some (get_output_path ⟨"d", "a.pdf".toList⟩ "_ocr".toList),
          true, true, none⟩,
        [get_output_path ⟨"d", "a.pdf".toList⟩ "_ocr".toList], []) ∧
    (process_pdf (fun _ _ _ => Except.ok ()) [] ⟨"d", "a.pdf".toList⟩
        "_ocr".toList false "eng").2.2 =
      [⟨⟨"d", "a.pdf".toList⟩, get_output_path ⟨"d", "a.pdf".toList⟩ "_ocr".toList,
          "eng", true, true⟩] := by
  constructor
  · exact (process_pdf_skip_and_force (fun _ _ _ => Except.ok ())
      [get_output_path ⟨"d", "a.pdf".toList⟩ "_ocr".toList]
      ⟨"d", "a.pdf".toList⟩ "_ocr".toList "eng").1 (by simp)
  · exact (process_pdf_skip_and_force (fun _ _ _ => Except.ok ()) []
      ⟨"d", "a.pdf".toList⟩ "_ocr".toList "eng").2 false (by simp)

theorem process_pdf_input (pipeline : Pipeline) (files : List Path) (input_path : Path)
    (suffix : List Char) (force : Bool) (language : String) :
    (process_pdf pipeline files input_path suffix force language).1.input_path = input_path := by
  simp only [process_pdf]
  split
  · rfl
  · split <;> rfl

theorem process_pdf_files_mono (pipeline : Pipeline) (files : List Path) (input_path : Path)
    (suffix : List Char) (force : Bool) (language : String) :
    ∀ q ∈ files, q ∈ (process_pdf pipeline files input_path suffix force language).2.1 := by
  intro q hq
  simp only [process_pdf]
  split
  · exact hq
  · split <;> simp [hq]

theorem process_pdf_success_out (pipeline : Pipeline) (files : List Path) (input_path : Path)
    (suffix : List Char) (language : String) :
    (process_pdf pipeline files input_path suffix false language).1.success = true →
    get_output_path input_path suffix ∈
      (process_pdf pipeline files input_path suffix false language).2.1 := by
  simp only [process_pdf]
  split
  next h => exact fun _ => h.1
  next h =>
    split
    · intro _
      simp
    · intro hs
      simp at hs

/-! ### The batch orchestrator -/

theorem tally_results (r : ProcessResult) (b : BatchResult) :
    (tally r b).results = r :: b.results := by
  unfold tally
  split_ifs <;> rfl

theorem tally_processed (r : ProcessResult) (b : BatchResult) :
    (tally r b).processed = b.processed + (if !r.skipped && r.success then 1 else 0) := by
  cases hs : r.skipped <;> cases hc : r.success <;> simp [tally, hs, hc]

theorem tally_skipped (r : ProcessResult) (b : BatchResult) :
    (tally r b).skipped = b.skipped + (if r.skipped then 1 else 0) := by
  cases hs : r.skipped <;> cases hc : r.success <;> simp [tally, hs, hc]

theorem tally_failed (r : ProcessResult) (b : BatchResult) :
    (tally r b).failed = b.failed + (if !r.skipped && !r.success then 1 else 0) := by
  cases hs : r.skipped <;> cases hc : r.success <;> simp [tally, hs, hc]

theorem tally_sum (r : ProcessResult) (b : BatchResult) :
    (tally r b).processed + (tally r b).skipped + (tally r b).failed =
      b.processed + b.skipped + b.failed + 1 := by
  cases hs : r.skipped <;> cases hc : r.success <;> simp [tally, hs, hc] <;> omega

/-- Completed batch runs satisfy the counter and ordering invariants,
whatever the callback did along the way. -/
theorem process_batch_go_ok_inv (pipeline : Pipeline) (suffix : List Char) (force : Bool)
    (language : String) (cb : Option ProgressCallback) (total : Nat) :
    ∀ (pdf_list : List Path) (i : Nat) (files : List Path) (b : BatchResult)
      (files2 : List Path),
      (process_batch_go pipeline suffix force language cb total i files pdf_list).2.2 =
        Except.ok (b, files2) →
      b.results.map (fun r => r.input_path) = pdf_list ∧
      b.processed + b.skipped + b.failed = b.results.length ∧
      b.processed = b.results.countP (fun r => !r.skipped && r.success) ∧
      b.skipped = b.results.countP (fun r => r.skipped) ∧
      b.failed = b.results.countP (fun r => !r.skipped && !r.success) := by
  intro L
  induction L with
  | nil =>
    intro i files b files2 h
    simp only [process_batch_go, Except.ok.injEq, Prod.mk.injEq] at h
    rw [← h.1]
    simp
  | cons p rest ih =>
    intro i files b files2 h
    have step :
        ∀ (b' : BatchResult) (fs : List Path),
          (process_batch_go pipeline suffix force language cb total (i + 1)
            (process_pdf pipeline files p suffix force language).2.1 rest).2.2 =
              Except.ok (b', fs) →
          b = tally (process_pdf pipeline files p suffix force language).1 b' →
          b.results.map (fun r => r.input_path) = p :: rest ∧
          b.processed + b.skipped + b.failed = b.results.length ∧
          b.processed = b.results.countP (fun r => !r.skipped && r.success) ∧
          b.skipped = b.results.countP (fun r => r.skipped) ∧
          b.failed = b.results.countP (fun r => !r.skipped && !r.success) := by
      intro b' fs hrec hb
      obtain ⟨ihmap, ihsum, ihp, ihs, ihf⟩ := ih (i + 1)
        (process_pdf pipeline files p suffix force language).2.1 b' fs hrec
      subst hb
      refine ⟨?_, ?_, ?_, ?_, ?_⟩
      · rw [tally_results]
        simp [ihmap, process_pdf_input]
      · rw [tally_sum, tally_results]
        simp [ihsum]
      · rw [tally_processed, tally_results, List.countP_cons, ihp]
      · rw [tally_skipped, tally_results, List.countP_cons, ihs]
      · rw [tally_failed, tally_results, List.countP_cons, ihf]
    rcases cb with _ | f
    · simp only [process_batch_go] at h
      rcases hrec : (process_batch_go pipeline suffix force language none total (i + 1)
          (process_pdf pipeline files p suffix force language).2.1 rest).2.2 with e | ⟨b', fs⟩
      · rw [hrec] at h
        simp at h
      · rw [hrec] at h
        simp only [Except.ok.injEq, Prod.mk.injEq] at h
        exact step b' fs hrec h.1.symm
    · simp only [process_batch_go] at h
      rcases hf : f (i + 1) total p with e | u
      · rw [hf] at h
        simp at h
      · rw [hf] at h
        rcases hrec : (process_batch_go pipeline suffix force language (some f) total (i + 1)
            (process_pdf pipeline files p suffix force language).2.1 rest).2.2 with e | ⟨b', fs⟩
        · rw [hrec] at h
          simp at h
        · rw [hrec] at h
          simp only [Except.ok.injEq, Prod.mk.injEq] at h
          exact step b' fs hrec h.1.symm

/-- With no progress callback the batch always runs to completion. -/
theorem process_batch_go_none_ok (pipeline : Pipeline) (suffix : List Char) (force : Bool)
    (language : String) (total : Nat) :
    ∀ (pdf_list : List Path) (i : Nat) (files : List Path),
      ∃ (b : BatchResult) (files2 : List Path),
        (process_batch_go pipeline suffix force language none total i files pdf_list).2.2 =
          Except.ok (b, files2) := by
  intro L
  induction L with
  | nil =>
    intro i files
    exact ⟨⟨0, 0, 0, []⟩, files, rfl⟩
  | cons p rest ih =>
    intro i files
    obtain ⟨b, files2, hok⟩ := ih (i + 1) (process_pdf pipeline files p suffix force language).2.1
    refine ⟨tally (process_pdf pipeline files p suffix force language).1 b, files2, ?_⟩
    simp only [process_batch_go]
    rw [hok]

/-- C2: whenever process_batch returns a BatchResult, its three counters sum
to the number of results, which equals the input length; each counter is the
tally of exactly the results it classifies (skipped, success and not skipped,
neither); and the results list has exactly one entry per input file, in input
order (mapping each result to its input path gives back the input list). -/
theorem process_batch_counters_invariant (pipeline : Pipeline) (files : List Path)
    (pdf_list : List Path) (suffix : List Char) (force : Bool) (language : String)
    (cb : Option ProgressCallback) (b : BatchResult) (files2 : List Path) :
    (process_batch pipeline files pdf_list suffix force language cb).2.2 =
      Except.ok (b, files2) →
    b.processed + b.skipped + b.failed = b.results.length ∧
    b.results.length = pdf_list.length ∧
    b.results.map (fun r => r.input_path) = pdf_list ∧
    b.processed = b.results.countP (fun r => !r.skipped && r.success) ∧
    b.skipped = b.results.countP (fun r => r.skipped) ∧
    b.failed = b.results.countP (fun r => !r.skipped && !r.success) := by
  intro h
  obtain ⟨hmap, hsum, hp, hs, hf⟩ :=
    process_batch_go_ok_inv pipeline suffix force language cb pdf_list.length
      pdf_list 0 files b files2 h
  have hlen : b.results.length = pdf_list.length := by
    rw [← hmap, List.length_map]
  exact ⟨hsum, hlen, hmap, hp, hs, hf⟩

/-- Witness for C2 on a one-element batch that gets processed. -/
theorem process_batch_counters_invariant_witness :
    (1 : Nat) + 0 + 0 =
        ([⟨⟨"d", "a.pdf".toList⟩, some ⟨"d", "a_ocr.pdf".toList⟩, true, false, none⟩] :
          List ProcessResult).length ∧
    ([⟨⟨"d", "a.pdf".toList⟩, some ⟨"d", "a_ocr.pdf".toList⟩, true, false, none⟩] :
        List ProcessResult).length = [(⟨"d", "a.pdf".toList⟩ : Path)].length ∧
    ([⟨⟨"d", "a.pdf".toList⟩, some ⟨"d", "a_ocr.pdf".toList⟩, true, false, none⟩] :
        List ProcessResult).map (fun r => r.input_path) = [⟨"d", "a.pdf".toList⟩] ∧
    (1 : Nat) = ([⟨⟨"d", "a.pdf".toList⟩, some ⟨"d", "a_ocr.pdf".toList⟩, true, false, none⟩] :
        List ProcessResult).countP (fun r => !r.skipped && r.success) ∧
    (0 : Nat) = ([⟨⟨"d", "a.pdf".toList⟩, some ⟨"d", "a_ocr.pdf".toList⟩, true, false, none⟩] :
        List ProcessResult).countP (fun r => r.skipped) ∧
    (0 : Nat) = ([⟨⟨"d", "a.pdf".toList⟩, some ⟨"d", "a_ocr.pdf".toList⟩, true, false, none⟩] :
        List ProcessResult).countP (fun r => !r.skipped && !r.success) :=
  process_batch_counters_invariant (fun _ _ _ => Except.ok ()) [] [⟨"d", "a.pdf".toList⟩]
    "_ocr".toList false "eng" none
    ⟨1, 0, 0, [⟨⟨"d", "a.pdf".toList⟩, some ⟨"d", "a_ocr.pdf".toList⟩, true, false, none⟩]⟩
    [⟨"d", "a_ocr.pdf".toList⟩] rfl

/-- C4: if the pipeline raises for a file that is not skipped, process_pdf
returns success=false, skipped=false, no output path and the exception's
message, after exactly one pipeline invocation; and a batch (no callback)
always completes with one result per input file, so one failure never aborts
the processing of subsequent files. -/
theorem process_pdf_failure_isolated (pipeline : Pipeline) (files : List Path)
    (input_path : Path) (suffix : List Char) (force : Bool) (language : String)
    (e : String) :
    (¬(get_output_path input_path suffix ∈ files ∧ force = false) →
      pipeline input_path (get_output_path input_path suffix) language = Except.error e →
      process_pdf pipeline files input_path suffix force language =
        (⟨input_path, none, false, false, some e⟩, files,
          [⟨input_path, get_output_path input_path suffix, language, true, true⟩])) ∧
    (∀ pdf_list : List Path, ∃ (b : BatchResult) (files2 : List Path),
      (process_batch pipeline files pdf_list suffix force language none).2.2 =
        Except.ok (b, files2) ∧
      b.results.map (fun r => r.input_path) = pdf_list) := by
  constructor
  · intro hf hpl
    simp [process_pdf, hf, hpl]
  · intro pdf_list
    obtain ⟨b, files2, hok⟩ := process_batch_go_none_ok pipeline suffix force language
      pdf_list.length pdf_list 0 files
    exact ⟨b, files2, hok,
      (process_batch_go_ok_inv pipeline suffix force language none pdf_list.length
        pdf_list 0 files b files2 hok).1⟩

/-- Witness for C4: a failing pipeline on a concrete file, alone in a batch. -/
theorem process_pdf_failure_isolated_witness :
    process_pdf (fun _ _ _ => Except.error "boom") [] ⟨"d", "a.pdf".toList⟩
        "_ocr".toList false "eng" =
      (⟨⟨"d", "a.pdf".toList⟩, none, false, false, some "boom"⟩, [],
        [⟨⟨"d", "a.pdf".toList⟩, get_output_path ⟨"d", "a.pdf".toList⟩ "_ocr".toList,
          "eng", true, true⟩]) :=
  (process_pdf_failure_isolated (fun _ _ _ => Except.error "boom") [] ⟨"d", "a.pdf".toList⟩
    "_ocr".toList false "eng" "boom").1 (by simp) rfl

/-- Batch processing never removes a file from the filesystem. -/
theorem process_batch_go_files_mono (pipeline : Pipeline) (suffix : List Char) (force : Bool)
    (language : String) (cb : Option ProgressCallback) (total : Nat) :
    ∀ (pdf_list : List Path) (i : Nat) (files : List Path) (b : BatchResult)
      (files2 : List Path),
      (process_batch_go pipeline suffix force language cb total i files pdf_list).2.2 =
        Except.ok (b, files2) →
      ∀ q ∈ files, q ∈ files2 := by
  intro L
  induction L with
  | nil =>
    intro i files b files2 h
    simp only [process_batch_go, Except.ok.injEq, Prod.mk.injEq] at h
    rw [← h.2]
    exact fun q hq => hq
  | cons p rest ih =>
    intro i files b files2 h q hq
    have hq2 := process_pdf_files_mono pipeline files p suffix force language q hq
    rcases cb with _ | f
    · simp only [process_batch_go] at h
      rcases hrec : (process_batch_go pipeline suffix force language none total (i + 1)
          (process_pdf pipeline files p suffix force language).2.1 rest).2.2 with e | ⟨b', fs⟩
      · rw [hrec] at h
        simp at h
      · rw [hrec] at h
        simp only [Except.ok.injEq, Prod.mk.injEq] at h
        rw [← h.2]
        exact ih (i + 1) _ b' fs hrec q hq2
    · simp only [process_batch_go] at h
      rcases hf : f (i + 1) total p with e | u
      · rw [hf] at h
        simp at h
      · rw [hf] at h
        rcases hrec : (process_batch_go pipeline suffix force language (some f) total (i + 1)
            (process_pdf pipeline files p suffix force language).2.1 rest).2.2 with e | ⟨b', fs⟩
        · rw [hrec] at h
          simp at h
        · rw [hrec] at h
          simp only [Except.ok.injEq, Prod.mk.injEq] at h
          rw [← h.2]
          exact ih (i + 1) _ b' fs hrec q hq2

/-- After a fully successful force=false batch, every input's output path
exists on the resulting filesystem. -/
theorem process_batch_go_success_outputs (pipeline : Pipeline) (suffix : List Char)
    (language : String) (cb : Option ProgressCallback) (total : Nat) :
    ∀ (pdf_list : List Path) (i : Nat) (files : List Path) (b : BatchResult)
      (files2 : List Path),
      (process_batch_go pipeline suffix false language cb total i files pdf_list).2.2 =
        Except.ok (b, files2) →
      (∀ r ∈ b.results, r.success = true) →
      ∀ p ∈ pdf_list, get_output_path p suffix ∈ files2 := by
  intro L
  induction L with
  | nil =>
    intro i files b files2 h hsucc p hp
    simp at hp
  | cons p0 rest ih =>
    intro i files b files2 h hsucc p hp
    have step :
        ∀ (b' : BatchResult) (fs : List Path),
          (process_batch_go pipeline suffix false language cb total (i + 1)
            (process_pdf pipeline files p0 suffix false language).2.1 rest).2.2 =
              Except.ok (b', fs) →
          b = tally (process_pdf pipeline files p0 suffix false language).1 b' →
          files2 = fs →
          get_output_path p suffix ∈ files2 := by
      intro b' fs hrec hb hfs
      subst hb
      subst hfs
      have hsucc' : ∀ r ∈ b'.results, r.success = true := by
        intro r hr
        exact hsucc r (by rw [tally_results]; exact List.mem_cons_of_mem _ hr)
      rcases List.mem_cons.mp hp with hp0 | hprest
      · subst hp0
        have hz : (process_pdf pipeline files p suffix false language).1.success = true := by
          apply hsucc
          rw [tally_results]
          exact List.mem_cons_self _ _
        have hout := process_pdf_success_out pipeline files p suffix language hz
        exact process_batch_go_files_mono pipeline suffix false language cb total rest
          (i + 1) _ b' files2 hrec _ hout
      · exact ih (i + 1) _ b' files2 hrec hsucc' p hprest
    rcases cb with _ | f
    · simp only [process_batch_go] at h
      rcases hrec : (process_batch_go pipeline suffix false language none total (i + 1)
          (process_pdf pipeline files p0 suffix false language).2.1 rest).2.2 with e | ⟨b', fs⟩
      · rw [hrec] at h
        simp at h
      · rw [hrec] at h
        simp only [Except.ok.injEq, Prod.mk.injEq] at h
        exact step b' fs hrec h.1.symm h.2.symm
    · simp only [process_batch_go] at h
      rcases hf : f (i + 1) total p0 with e | u
      · rw [hf] at h
        simp at h
      · rw [hf] at h
        rcases hrec : (process_batch_go pipeline suffix false language (some f) total (i + 1)
            (process_pdf pipeline files p0 suffix false language).2.1 rest).2.2 with e | ⟨b', fs⟩
        · rw [hrec] at h
          simp at h
        · rw [hrec] at h
          simp only [Except.ok.injEq, Prod.mk.injEq] at h
          exact step b' fs hrec h.1.symm h.2.symm

/-- When every input's output path already exists, a force=false batch with
no callback skips every file and leaves the filesystem unchanged. -/
theorem process_batch_go_all_skip (pipeline : Pipeline) (suffix : List Char)
    (language : String) (total : Nat) :
    ∀ (pdf_list : List Path) (i : Nat) (files : List Path),
      (∀ p ∈ pdf_list, get_output_path p suffix ∈ files) →
      process_batch_go pipeline suffix false language none total i files pdf_list =
        ([], [], Except.ok
          (⟨0, pdf_list.length, 0,
            pdf_list.map (fun p => ⟨p, some (get_output_path p suffix), true, true, none⟩)⟩,
            files)) := by
  intro L
  induction L with
  | nil =>
    intro i files h
    rfl
  | cons p rest ih =>
    intro i files h
    have hskip : process_pdf pipeline files p suffix false language =
        (⟨p, some (get_output_path p suffix), true, true, none⟩, files, []) := by
      simp [process_pdf, h p (List.mem_cons_self p rest)]
    simp only [process_batch_go, hskip]
    rw [ih (i + 1) files (fun q hq => h q (List.mem_cons_of_mem p hq))]
    simp [tally]

/-- C5: if a force=false batch (no callback) fully succeeds, running the same
batch again on the resulting filesystem skips every file: the second run has
skipped = length of the input list and processed = 0. -/
theorem process_batch_idempotent (pipeline : Pipeline) (files : List Path)
    (pdf_list : List Path) (suffix : List Char) (language : String)
    (b : BatchResult) (files2 : List Path) :
    (process_batch pipeline files pdf_list suffix false language none).2.2 =
      Except.ok (b, files2) →
    (∀ r ∈ b.results, r.success = true) →
    ∀ (b2 : BatchResult) (files3 : List Path),
      (process_batch pipeline files2 pdf_list suffix false language none).2.2 =
        Except.ok (b2, files3) →
      b2.skipped = pdf_list.length ∧ b2.processed = 0 := by
  intro h hsucc b2 files3 h2
  have houts := process_batch_go_success_outputs pipeline suffix language none pdf_list.length
    pdf_list 0 files b files2 h hsucc
  have hall := process_batch_go_all_skip pipeline suffix language pdf_list.length
    pdf_list 0 files2 houts
  simp only [process_batch] at h2
  rw [hall] at h2
  simp only [Except.ok.injEq, Prod.mk.injEq] at h2
  rw [← h2.1]
  exact ⟨rfl, rfl⟩

/-- Witness for C5 on a one-element batch: after a successful first run the
second run skips the file. -/
theorem process_batch_idempotent_witness :
    (⟨0, 1, 0, [⟨⟨"d", "a.pdf".toList⟩, some ⟨"d", "a_ocr.pdf".toList⟩, true, true, none⟩]⟩ :
        BatchResult).skipped = [(⟨"d", "a.pdf".toList⟩ : Path)].length ∧
    (⟨0, 1, 0, [⟨⟨"d", "a.pdf".toList⟩, some ⟨"d", "a_ocr.pdf".toList⟩, true, true, none⟩]⟩ :
        BatchResult).processed = 0 :=
  process_batch_idempotent (fun _ _ _ => Except.ok ()) [] [⟨"d", "a.pdf".toList⟩]
    "_ocr".toList "eng"
    ⟨1, 0, 0, [⟨⟨"d", "a.pdf".toList⟩, some ⟨"d", "a_ocr.pdf".toList⟩, true, false, none⟩]⟩
    [⟨"d", "a_ocr.pdf".toList⟩] rfl (by decide)
    ⟨0, 1, 0, [⟨⟨"d", "a.pdf".toList⟩, some ⟨"d", "a_ocr.pdf".toList⟩, true, true, none⟩]⟩
    [⟨"d", "a_ocr.pdf".toList⟩] rfl

/-- A callback that always returns leaves the batch's behaviour unchanged;
its invocations are one per file, in order, 1-based. -/
theorem process_batch_go_callback_ok (pipeline : Pipeline) (suffix : List Char) (force : Bool)
    (language : String) (f : ProgressCallback) (total : Nat)
    (hf : ∀ i t p, f i t p = Except.ok ()) :
    ∀ (pdf_list : List Path) (i : Nat) (files : List Path),
      process_batch_go pipeline suffix force language (some f) total i files pdf_list =
        (eventsFrom total i pdf_list,
          (process_batch_go pipeline suffix force language none total i files pdf_list).2.1,
          (process_batch_go pipeline suffix force language none total i files pdf_list).2.2) := by
  intro L
  induction L with
  | nil =>
    intro i files
    rfl
  | cons p rest ih =>
    intro i files
    simp only [process_batch_go, hf, eventsFrom]
    rw [ih (i + 1)]

/-- A callback that raises at file number l1.length + 1 aborts the batch
right there: the events are exactly one per file up to and including the
failing one, the pipeline ran only on the preceding files, and the error
propagates. -/
theorem process_batch_go_callback_abort (pipeline : Pipeline) (suffix : List Char)
    (force : Bool) (language : String) (f : ProgressCallback) (total : Nat) (p : Path)
    (l2 : List Path) (e : String) :
    ∀ (l1 : List Path) (i : Nat) (files : List Path),
      (∀ (j : Nat) (hj : j < l1.length), f (i + j + 1) total (l1.get ⟨j, hj⟩) = Except.ok ()) →
      f (i + l1.length + 1) total p = Except.error e →
      process_batch_go pipeline suffix force language (some f) total i files (l1 ++ p :: l2) =
        (eventsFrom total i l1 ++ [⟨i + l1.length + 1, total, p⟩],
          (process_batch_go pipeline suffix force language none total i files l1).2.1,
          Except.error e) := by
  intro l1
  induction l1 with
  | nil =>
    intro i files hok herr
    have herr' : f (i + 1) total p = Except.error e := by simpa using herr
    simp only [List.nil_append, process_batch_go, herr', eventsFrom]
    simp
  | cons q l1' ih =>
    intro i files hok herr
    have hq : f (i + 1) total q = Except.ok () := by simpa using hok 0 (by simp)
    have hok' : ∀ (j : Nat) (hj : j < l1'.length),
        f (i + 1 + j + 1) total (l1'.get ⟨j, hj⟩) = Except.ok () := by
      intro j hj
      have harith : i + 1 + j + 1 = i + (j + 1) + 1 := by omega
      rw [harith]
      have := hok (j + 1) (by simpa using Nat.succ_lt_succ hj)
      simpa using this
    have herr' : f (i + 1 + l1'.length + 1) total p = Except.error e := by
      have harith : i + 1 + l1'.length + 1 = i + (q :: l1').length + 1 := by
        simp
        omega
      rw [harith]
      exact herr
    have hrec := ih (i + 1) (process_pdf pipeline files q suffix force language).2.1 hok' herr'
    simp only [List.cons_append, process_batch_go, hq, eventsFrom, List.append_eq]
    rw [hrec]
    have harith : i + 1 + l1'.length + 1 = i + (l1'.length + 1) + 1 := by omega
    simp [Prod.mk.injEq, harith]

/-- C8: with a progress callback that never raises, process_batch behaves
exactly as without one (same pipeline calls and same outcome) and invokes the
callback exactly once before each file with (1-based index, total input
count, the file's path), in input order; a callback exception is not caught:
it propagates out of process_batch, aborting the batch at that file, with the
pipeline having run only on the files before it. -/
theorem progress_callback_contract (pipeline : Pipeline) (files : List Path)
    (suffix : List Char) (force : Bool) (language : String) (f : ProgressCallback) :
    (∀ pdf_list : List Path,
      (∀ i t p, f i t p = Except.ok ()) →
      process_batch pipeline files pdf_list suffix force language (some f) =
        (eventsFrom pdf_list.length 0 pdf_list,
          (process_batch pipeline files pdf_list suffix force language none).2.1,
          (process_batch pipeline files pdf_list suffix force language none).2.2)) ∧
    (∀ (l1 : List Path) (p : Path) (l2 : List Path) (e : String),
      (∀ (j : Nat) (hj : j < l1.length),
        f (j + 1) (l1 ++ p :: l2).length (l1.get ⟨j, hj⟩) = Except.ok ()) →
      f (l1.length + 1) (l1 ++ p :: l2).length p = Except.error e →
      process_batch pipeline files (l1 ++ p :: l2) suffix force language (some f) =
        (eventsFrom (l1 ++ p :: l2).length 0 l1 ++
          [⟨l1.length + 1, (l1 ++ p :: l2).length, p⟩],
          (process_batch_go pipeline suffix force language none (l1 ++ p :: l2).length
            0 files l1).2.1,
          Except.error e)) := by
  constructor
  · intro pdf_list hf
    exact process_batch_go_callback_ok pipeline suffix force language f pdf_list.length hf
      pdf_list 0 files
  · intro l1 p l2 e hok herr
    have h := process_batch_go_callback_abort pipeline suffix force language f
      (l1 ++ p :: l2).length p l2 e l1 0 files
      (fun j hj => by simpa using hok j hj)
      (by simpa using herr)
    simpa [process_batch] using h

/-- Witness for C8: a harmless callback on a one-element batch behaves like
no callback; a callback raising on the first file aborts with its error. -/
theorem progress_callback_contract_witness :
    process_batch (fun _ _ _ => Except.ok ()) [] [⟨"d", "a.pdf".toList⟩] "_ocr".toList
        false "eng" (some (fun _ _ _ => Except.ok ())) =
      (eventsFrom 1 0 [⟨"d", "a.pdf".toList⟩],
        (process_batch (fun _ _ _ => Except.ok ()) [] [⟨"d", "a.pdf".toList⟩] "_ocr".toList
          false "eng" none).2.1,
        (process_batch (fun _ _ _ => Except.ok ()) [] [⟨"d", "a.pdf".toList⟩] "_ocr".toList
          false "eng" none).2.2) ∧
    process_batch (fun _ _ _ => Except.ok ()) [] [⟨"d", "a.pdf".toList⟩] "_ocr".toList
        false "eng" (some (fun _ _ _ => Except.error "boom")) =
      ([⟨1, 1, ⟨"d", "a.pdf".toList⟩⟩], [], Except.error "boom") := by
  constructor
  · exact (progress_callback_contract (fun _ _ _ => Except.ok ()) [] "_ocr".toList false
      "eng" (fun _ _ _ => Except.ok ())).1 [⟨"d", "a.pdf".toList⟩] (fun _ _ _ => rfl)
  · have h := (progress_callback_contract (fun _ _ _ => Except.ok ()) [] "_ocr".toList false
      "eng" (fun _ _ _ => Except.error "boom")).2 [] ⟨"d", "a.pdf".toList⟩ [] "boom"
      (fun j hj => absurd hj (Nat.not_lt_zero j)) rfl
    simpa [process_batch_go, eventsFrom] using h

/-! ### The command-line front end -/

/-- C9: for an existing regular file whose extension lowercases to ".pdf",
with dry-run off, the CLI always invokes process_pdf on the file: the exit
code, resulting filesystem and pipeline-call trace are exactly the ones
induced by process_pdf's result, and they are independent of the classifier's
verdict (swapping the PDF library's view of the documents changes neither the
exit code nor the filesystem nor the pipeline calls — only printed lines). -/
theorem single_file_always_processes (w : CliWorld)
    (docs2 : Path → Except String (List Nat)) (parsed : Args) :
    w.target_exists = true → w.target_is_file = true →
    parsed.path.suffix.map Char.toLower = ".pdf".toList →
    parsed.dry_run = false →
    main w parsed = Except.ok (process_single_file w parsed) ∧
    (process_single_file w parsed).2.2 =
      ((process_pdf w.pipeline w.files parsed.path parsed.suffix parsed.force
          parsed.language).2.1,
        (process_pdf w.pipeline w.files parsed.path parsed.suffix parsed.force
          parsed.language).2.2) ∧
    (process_single_file w parsed).1 =
      (if (process_pdf w.pipeline w.files parsed.path parsed.suffix parsed.force
            parsed.language).1.skipped then 0
        else if (process_pdf w.pipeline w.files parsed.path parsed.suffix parsed.force
            parsed.language).1.success then 0
        else 1) ∧
    ((process_single_file { w with docs := docs2 } parsed).1 =
        (process_single_file w parsed).1 ∧
      (process_single_file { w with docs := docs2 } parsed).2.2 =
        (process_single_file w parsed).2.2) := by
  intro hex hfile hpdf hdry
  refine ⟨by simp [main, hex, hfile], ?_, ?_, ?_⟩
  · simp only [process_single_file, hpdf, hdry]
    cases hsk : (process_pdf w.pipeline w.files parsed.path parsed.suffix parsed.force
        parsed.language).1.skipped <;>
      cases hsc : (process_pdf w.pipeline w.files parsed.path parsed.suffix parsed.force
        parsed.language).1.success <;>
      simp [hsk, hsc]
  · simp only [process_single_file, hpdf, hdry]
    cases hsk : (process_pdf w.pipeline w.files parsed.path parsed.suffix parsed.force
        parsed.language).1.skipped <;>
      cases hsc : (process_pdf w.pipeline w.files parsed.path parsed.suffix parsed.force
        parsed.language).1.success <;>
      simp [hsk, hsc]
  · constructor <;>
      (simp only [process_single_file, hpdf, hdry]
       cases hsk : (process_pdf w.pipeline w.files parsed.path parsed.suffix parsed.force
           parsed.language).1.skipped <;>
         cases hsc : (process_pdf w.pipeline w.files parsed.path parsed.suffix parsed.force
           parsed.language).1.success <;>
         simp [hsk, hsc])

/-- Witness for C9 on a concrete unreadable ".pdf" file: the classifier says
"already has OCR", the pipeline is still invoked, and swapping the document
oracle for one that says "needs OCR" changes neither exit code nor calls. -/
theorem single_file_always_processes_witness :
    main ⟨true, true, false, [], fun _ => Except.error "bad", fun _ _ _ => Except.ok (), []⟩
        ⟨⟨"d", "scan.pdf".toList⟩, "_ocr".toList, false, false, 1 / 2, "eng"⟩ =
      Except.ok (process_single_file
        ⟨true, true, false, [], fun _ => Except.error "bad", fun _ _ _ => Except.ok (), []⟩
        ⟨⟨"d", "scan.pdf".toList⟩, "_ocr".toList, false, false, 1 / 2, "eng"⟩) ∧
    (process_single_file
        ⟨true, true, false, [], fun _ => Except.error "bad", fun _ _ _ => Except.ok (), []⟩
        ⟨⟨"d", "scan.pdf".toList⟩, "_ocr".toList, false, false, 1 / 2, "eng"⟩).2.2 =
      ((process_pdf (fun _ _ _ => Except.ok ()) [] ⟨"d", "scan.pdf".toList⟩ "_ocr".toList
          false "eng").2.1,
        (process_pdf (fun _ _ _ => Except.ok ()) [] ⟨"d", "scan.pdf".toList⟩ "_ocr".toList
          false "eng").2.2) ∧
    (process_single_file
        ⟨true, true, false, [], fun _ => Except.error "bad", fun _ _ _ => Except.ok (), []⟩
        ⟨⟨"d", "scan.pdf".toList⟩, "_ocr".toList, false, false, 1 / 2, "eng"⟩).1 =
      (if (process_pdf (fun _ _ _ => Except.ok ()) [] ⟨"d", "scan.pdf".toList⟩ "_ocr".toList
            false "eng").1.skipped then 0
        else if (process_pdf (fun _ _ _ => Except.ok ()) [] ⟨"d", "scan.pdf".toList⟩
            "_ocr".toList false "eng").1.success then 0
        else 1) ∧
    ((process_single_file
          ⟨true, true, false, [], fun _ => Except.ok [0, 0], fun _ _ _ => Except.ok (), []⟩
          ⟨⟨"d", "scan.pdf".toList⟩, "_ocr".toList, false, false, 1 / 2, "eng"⟩).1 =
        (process_single_file
          ⟨true, true, false, [], fun _ => Except.error "bad", fun _ _ _ => Except.ok (), []⟩
          ⟨⟨"d", "scan.pdf".toList⟩, "_ocr".toList, false, false, 1 / 2, "eng"⟩).1 ∧
      (process_single_file
          ⟨true, true, false, [], fun _ => Except.ok [0, 0], fun _ _ _ => Except.ok (), []⟩
          ⟨⟨"d", "scan.pdf".toList⟩, "_ocr".toList, false, false, 1 / 2, "eng"⟩).2.2 =
        (process_single_file
          ⟨true, true, false, [], fun _ => Except.error "bad", fun _ _ _ => Except.ok (), []⟩
          ⟨⟨"d", "scan.pdf".toList⟩, "_ocr".toList, false, false, 1 / 2, "eng"⟩).2.2) :=
  single_file_always_processes
    ⟨true, true, false, [], fun _ => Except.error "bad", fun _ _ _ => Except.ok (), []⟩
    (fun _ => Except.ok [0, 0])
    ⟨⟨"d", "scan.pdf".toList⟩, "_ocr".toList, false, false, 1 / 2, "eng"⟩
    rfl rfl (by decide) rfl

/-- C6, amended to what the code checks (existence, a ".pdf" extension for a
file target, file-or-directory): such invalid targets are reported with a
single error line, exit with code 1, and touch nothing — the filesystem is
returned unchanged and no pipeline invocation occurs.  Readability of a
".pdf"-named file is not checked at this stage. -/
theorem invalid_target_amended (w : CliWorld) (parsed : Args) :
    (w.target_exists = false ∨
      (w.target_exists = true ∧ w.target_is_file = true ∧
        parsed.path.suffix.map Char.toLower ≠ ".pdf".toList) ∨
      (w.target_exists = true ∧ w.target_is_file = false ∧ w.target_is_dir = false)) →
    (main w parsed =
        Except.ok (1, ["Error: Path not found: " ++ parsed.path.render], w.files, []) ∨
      main w parsed =
        Except.ok (1, ["Error: Not a PDF file: " ++ parsed.path.render], w.files, []) ∨
      main w parsed =
        Except.ok (1, ["Error: Not a file or directory: " ++ parsed.path.render],
          w.files, [])) := by
  intro h
  rcases h with h1 | ⟨h1, h2, h3⟩ | ⟨h1, h2, h3⟩
  · left
    simp [main, h1]
  · right
    left
    simp [main, h1, h2, process_single_file, h3]
    intro hcontr
    exact absurd hcontr h3
  · right
    right
    simp [main, h1, h2, h3]

/-- Witness for the amended C6 at a non-existing target path. -/
theorem invalid_target_amended_witness :
    main ⟨false, false, false, [], fun _ => Except.ok [], fun _ _ _ => Except.ok (), []⟩
        ⟨⟨"d", "scan.pdf".toList⟩, "_ocr".toList, false, false, 1 / 2, "eng"⟩ =
      Except.ok (1, ["Error: Path not found: " ++ Path.render ⟨"d", "scan.pdf".toList⟩],
        [], []) ∨
    main ⟨false, false, false, [], fun _ => Except.ok [], fun _ _ _ => Except.ok (), []⟩
        ⟨⟨"d", "scan.pdf".toList⟩, "_ocr".toList, false, false, 1 / 2, "eng"⟩ =
      Except.ok (1, ["Error: Not a PDF file: " ++ Path.render ⟨"d", "scan.pdf".toList⟩],
        [], []) ∨
    main ⟨false, false, false, [], fun _ => Except.ok [], fun _ _ _ => Except.ok (), []⟩
        ⟨⟨"d", "scan.pdf".toList⟩, "_ocr".toList, false, false, 1 / 2, "eng"⟩ =
      Except.ok (1,
        ["Error: Not a file or directory: " ++ Path.render ⟨"d", "scan.pdf".toList⟩],
        [], []) :=
  invalid_target_amended
    ⟨false, false, false, [], fun _ => Except.ok [], fun _ _ _ => Except.ok (), []⟩
    ⟨⟨"d", "scan.pdf".toList⟩, "_ocr".toList, false, false, 1 / 2, "eng"⟩ (Or.inl rfl)

/-- C6 counterexample: an existing regular file named "scan.pdf" that the PDF
library cannot open (so the target is not a readable PDF, and not a
directory) is not rejected by the CLI: the OCR pipeline is invoked on it
(one pipeline call) and, the pipeline succeeding, the exit code is 0 — both
the claimed non-zero exit and the claimed absence of pipeline invocations
fail on the code. -/
theorem invalid_target_counterexample :
    (main ⟨true, true, false, [], fun _ => Except.error "cannot open",
        fun _ _ _ => Except.ok (), []⟩
      ⟨⟨"d", "scan.pdf".toList⟩, "_ocr".toList, false, false, 1 / 2, "eng"⟩).toOption.map
      (fun r => (r.1, r.2.2.2.length)) = some (0, 1) := rfl

end PdfOcr
